import Mathlib

/-!
Verification development for the desktop development shell.

We give a shallow embedding of the three stateful engines of the CORE:
the process session manager (the terminal IPC handlers), the repository
status engine (the porcelain status parser and the optimistic git store
mutations), and the device-authorization flow, translated from the
TypeScript sources, and prove the testable properties about them.
-/

namespace VanillaShell

/-! ## Repository status engine: porcelain parser (git:status handler) -/

/-- A file change as produced by the git:status handler and consumed by the
renderer store: a path and a status string such as "modified" or "added". -/
structure FileChange where
  path : String
  status : String
deriving DecidableEq, Repr

/-- The three-collection repository status, as returned by the git:status
handler and held by the renderer git store. -/
structure GitStatus where
  staged : List FileChange
  unstaged : List FileChange
  untracked : List String
deriving DecidableEq, Repr

/-- Embeds getStatusName: the switch converting a porcelain status code
character to a status string; unrecognized codes map to "unknown". -/
def getStatusName (code : Char) : String :=
  match code with
  | 'M' => "modified"
  | 'A' => "added"
  | 'D' => "deleted"
  | 'R' => "renamed"
  | 'C' => "copied"
  | 'U' => "unmerged"
  | _ => "unknown"

/-- Indexing a JavaScript string out of range yields undefined, which then
falls to the default branch of getStatusName; we model line[i] as an
optional character. -/
def getStatusNameO (code : Option Char) : String :=
  match code with
  | some c => getStatusName c
  | none => "unknown"

/-- Models the JavaScript String.prototype.trim used on the porcelain
output: drop whitespace from both ends. -/
def jsTrim (s : String) : String :=
  ((s.data.dropWhile Char.isWhitespace).reverse.dropWhile Char.isWhitespace).reverse.asString

/-- Helper for splitting on the newline character, accumulating the
current segment in reverse. -/
def splitNlAux : List Char → List Char → List String
  | [], cur => [cur.reverse.asString]
  | c :: rest, cur =>
    if c = '\n' then cur.reverse.asString :: splitNlAux rest []
    else splitNlAux rest (c :: cur)

/-- Models the JavaScript split on a newline: the list of segments of the
string between occurrences of the newline character. -/
def jsSplitNl (s : String) : List String := splitNlAux s.data []

/-- One iteration of the for-loop of the git:status handler: classify a
single porcelain line into contributions to staged, unstaged, untracked.
indexStatus is line[0], workingStatus is line[1], the path is line.slice(3);
out-of-range indexing gives undefined, modeled as none. -/
def classifyLine (acc : GitStatus) (line : String) : GitStatus :=
  let indexStatus := line.data.get? 0
  let workingStatus := line.data.get? 1
  let filePath := (line.data.drop 3).asString
  if indexStatus = some '?' ∧ workingStatus = some '?' then
    { acc with untracked := acc.untracked ++ [filePath] }
  else
    let acc1 :=
      if indexStatus ≠ some ' ' ∧ indexStatus ≠ some '?' then
        { acc with staged := acc.staged ++ [⟨filePath, getStatusNameO indexStatus⟩] }
      else acc
    if workingStatus ≠ some ' ' ∧ workingStatus ≠ some '?' then
      { acc1 with unstaged := acc1.unstaged ++ [⟨filePath, getStatusNameO workingStatus⟩] }
    else acc1

/-- Embeds the body of the git:status close handler: trim the porcelain
output, split it on newlines, drop empty lines, and classify each line. -/
def parseStatusOutput (output : String) : GitStatus :=
  let lines := (jsSplitNl (jsTrim output)).filter (fun l => l ≠ "")
  lines.foldl classifyLine ⟨[], [], []⟩

/-! ## Repository status engine: optimistic renderer store mutations
(src/renderer/stores/gitStore.ts) -/

/-- Embeds stageFile of the git store: if the path has an unstaged entry,
move that entry to the end of staged and drop it from unstaged; otherwise,
if the path is untracked, append a fresh "added" entry to staged and drop
the path from untracked; otherwise do nothing. -/
def stageFile (st : GitStatus) (p : String) : GitStatus :=
  match st.unstaged.find? (fun f => f.path == p) with
  | some unstagedFile =>
    { st with
      staged := st.staged ++ [unstagedFile],
      unstaged := st.unstaged.filter (fun f => f.path != p) }
  | none =>
    if st.untracked.contains p then
      { st with
        staged := st.staged ++ [⟨p, "added"⟩],
        untracked := st.untracked.filter (fun q => q != p) }
    else st

/-- Embeds unstageFile of the git store: find the first staged entry for
the path; if its status is "added" drop every staged entry for the path
and append the path to untracked, otherwise drop every staged entry for
the path and append the found entry to unstaged; no staged entry means no
change. -/
def unstageFile (st : GitStatus) (p : String) : GitStatus :=
  match st.staged.find? (fun f => f.path == p) with
  | none => st
  | some stagedFile =>
    if stagedFile.status == "added" then
      { st with
        staged := st.staged.filter (fun f => f.path != p),
        untracked := st.untracked ++ [p] }
    else
      { st with
        staged := st.staged.filter (fun f => f.path != p),
        unstaged := st.unstaged ++ [stagedFile] }

/-- Embeds stageAll of the git store: every unstaged entry and every
untracked path (as an "added" change) is appended to staged; unstaged and
untracked become empty. -/
def stageAll (st : GitStatus) : GitStatus :=
  { staged :=
      st.staged ++ st.unstaged ++ st.untracked.map (fun p => ⟨p, "added"⟩),
    unstaged := [],
    untracked := [] }

/-- Embeds unstageAll of the git store: staged entries with status other
than "added" move to unstaged, staged entries with status "added" move
their paths to untracked, staged becomes empty. -/
def unstageAll (st : GitStatus) : GitStatus :=
  { staged := [],
    unstaged := st.unstaged ++ st.staged.filter (fun f => f.status != "added"),
    untracked :=
      st.untracked ++ (st.staged.filter (fun f => f.status == "added")).map (fun f => f.path) }

/-- The class of a path in a status: whether it occurs in staged, in
unstaged, and in untracked. -/
def classify (st : GitStatus) (p : String) : Bool × Bool × Bool :=
  (st.staged.any (fun f => f.path == p),
   st.unstaged.any (fun f => f.path == p),
   st.untracked.contains p)

/-- The three-collection mutual-exclusion invariant on a repository
status: each collection lists each path at most once, and the three
collections are pairwise disjoint on paths. -/
def StatusInv (st : GitStatus) : Prop :=
  (st.staged.map FileChange.path).Nodup ∧
  (st.unstaged.map FileChange.path).Nodup ∧
  st.untracked.Nodup ∧
  (∀ p ∈ st.staged.map FileChange.path, p ∉ st.unstaged.map FileChange.path) ∧
  (∀ p ∈ st.staged.map FileChange.path, p ∉ st.untracked) ∧
  (∀ p ∈ st.unstaged.map FileChange.path, p ∉ st.untracked)

instance (st : GitStatus) : Decidable (StatusInv st) := by
  unfold StatusInv; infer_instance

/-! ## Process session manager (the terminal IPC handlers)

The registry is the module-level Map from handle strings to terminal
entries, together with the module-level numeric counter. A spawned child
process is modeled by the observable state the handlers can change: the
data written to its stdin and whether kill was invoked on it. Messages
sent to the renderer (terminal:data, terminal:exit) are collected in an
explicit list. -/

/-- Fueled digit accumulator for decimal rendering: most significant
digits first. The fuel only serves structural recursion; any fuel at or
above n is enough. -/
def natToDecAux : Nat → Nat → List Char
  | 0, _ => []
  | _, 0 => []
  | fuel + 1, n + 1 =>
    natToDecAux fuel ((n + 1) / 10) ++ [Nat.digitChar ((n + 1) % 10)]

/-- Decimal rendering of a natural number, modeling the JavaScript
number-to-string conversion inside the template literal for the handle. -/
def natToDec (n : Nat) : String :=
  if n = 0 then "0" else (natToDecAux n n).asString

/-- The handle issued for counter value k: the template literal
term-dollar-brace k brace of the terminal:create handler. -/
def mkHandle (k : Nat) : String := "term-" ++ natToDec k

/-- Observable state of one spawned child process. -/
structure ProcSt where
  stdinWrites : List String
  killSent : Bool
deriving DecidableEq, Repr

/-- The terminal registry entry map, in Map insertion order. -/
abbrev Registry := List (String × ProcSt)

/-- Map.get: the value at the first (only) entry with the key. -/
def mapGet (m : Registry) (k : String) : Option ProcSt :=
  (m.find? (fun e => e.1 == k)).map (fun e => e.2)

/-- Map.set: replace the entry if the key is present, else append. -/
def mapSet (m : Registry) (k : String) (v : ProcSt) : Registry :=
  if m.any (fun e => e.1 == k) then
    m.map (fun e => if e.1 == k then (k, v) else e)
  else m ++ [(k, v)]

/-- Map.delete: remove the entry with the key. -/
def mapDelete (m : Registry) (k : String) : Registry :=
  m.filter (fun e => e.1 != k)

/-- Update the process state stored under a key, if present. -/
def mapModify (m : Registry) (k : String) (f : ProcSt → ProcSt) : Registry :=
  m.map (fun e => if e.1 == k then (e.1, f e.2) else e)

/-- The mutable module state of the terminal handlers: the id counter and
the terminals Map. -/
structure TermState where
  counter : Nat
  terminals : Registry
deriving DecidableEq, Repr

/-- The initial module state: counter 0, empty Map. -/
def initTermState : TermState := ⟨0, []⟩

/-- A message sent to the renderer on the terminal channels. -/
inductive Msg where
  | chunk (id : String) (text : String)
  | exited (id : String) (code : Int)
deriving DecidableEq, Repr

/-- Embeds the registration part of the terminal:create handler: issue the
handle for the incremented counter and store a fresh entry in the Map,
returning the new state and the handle. -/
def termCreate (s : TermState) : TermState × String :=
  let id := mkHandle (s.counter + 1)
  (⟨s.counter + 1, mapSet s.terminals id ⟨[], false⟩⟩, id)

/-- Embeds the terminal:write handler: if the handle is in the Map, write
the data to the stdin of its process; otherwise do nothing. -/
def termWrite (s : TermState) (id : String) (data : String) : TermState :=
  match mapGet s.terminals id with
  | some _ =>
    { s with terminals :=
        mapModify s.terminals id (fun p => { p with stdinWrites := p.stdinWrites ++ [data] }) }
  | none => s

/-- Embeds the terminal:resize handler: standard spawn supports no resize,
so the handler only logs and changes nothing. -/
def termResize (s : TermState) (_id : String) (_cols _rows : Nat) : TermState := s

/-- Embeds the terminal:kill handler: if the handle is in the Map, send
kill to its process and delete the entry; otherwise do nothing. -/
def termKill (s : TermState) (id : String) : TermState :=
  match mapGet s.terminals id with
  | some _ => { s with terminals := mapDelete s.terminals id }
  | none => s

/-- JavaScript code-or-zero: the expression code || 0 of the exit
listener, where a null exit code (and the number 0) yields 0. -/
def jsOrZero (code : Option Int) : Int :=
  match code with
  | none => 0
  | some n => if n = 0 then 0 else n

/-- Embeds the exit listener registered by terminal:create: send a
terminal:exit message carrying code || 0, then delete the handle from the
Map. -/
def handleExit (s : TermState) (id : String) (code : Option Int) : TermState × List Msg :=
  ({ s with terminals := mapDelete s.terminals id }, [Msg.exited id (jsOrZero code)])

/-- Embeds the error listener registered by terminal:create: log, then
send the error text as a terminal:data message; the Map is not touched. -/
def handleError (s : TermState) (id : String) (emsg : String) : TermState × List Msg :=
  (s, [Msg.chunk id ("\r\nError: " ++ emsg ++ "\r\n")])

/-- Whether a renderer message is an exit notification. -/
def isExitMsg : Msg → Bool
  | Msg.exited _ _ => true
  | Msg.chunk _ _ => false

/-- The commands and asynchronous process events that drive the terminal
module state. -/
inductive TOp where
  | create
  | write (id : String) (data : String)
  | resize (id : String) (cols rows : Nat)
  | kill (id : String)
  | exitEvt (id : String) (code : Option Int)
  | errorEvt (id : String) (emsg : String)

/-- One step of the terminal module: apply the corresponding handler,
reporting a freshly issued handle when the operation is create. -/
def stepOp (s : TermState) : TOp → TermState × Option String
  | .create => let r := termCreate s; (r.1, some r.2)
  | .write id data => (termWrite s id data, none)
  | .resize id cols rows => (termResize s id cols rows, none)
  | .kill id => (termKill s id, none)
  | .exitEvt id code => ((handleExit s id code).1, none)
  | .errorEvt id emsg => ((handleError s id emsg).1, none)

/-- Run a sequence of operations from a given state, collecting the
handles issued by create in order. -/
def runOps (s : TermState) (issued : List String) : List TOp → TermState × List String
  | [] => (s, issued)
  | op :: rest =>
    let r := stepOp s op
    runOps r.1 (issued ++ r.2.toList) rest

/-- Run a sequence of operations from the initial module state. -/
def execOps (ops : List TOp) : TermState × List String :=
  runOps initTermState [] ops

/-- Invariant of the terminal module state relative to the list of handles
issued so far: no handle was issued twice, the Map keys are free of
duplicates, every registered handle was issued, and every issued handle
is the handle of some positive counter value not above the counter. -/
def TermInv (s : TermState) (issued : List String) : Prop :=
  issued.Nodup ∧
  (s.terminals.map Prod.fst).Nodup ∧
  (∀ e ∈ s.terminals, e.1 ∈ issued) ∧
  (∀ h ∈ issued, ∃ k, 0 < k ∧ k ≤ s.counter ∧ h = mkHandle k)

/-! ## Device-authorization flow (authenticateWithDeviceFlow)

The flow is a polling loop against the token endpoint. We embed it as a
function of the device-code response, an oracle giving the token-endpoint
answer to the n-th poll, a user-endpoint oracle, and a fuel bound for the
loop (the real loop can run unboundedly when the interval is zero). Time
is the wall clock in milliseconds; awaiting the sleep advances it by the
current interval. The JavaScript throw sites are modeled by the thrown
result carrying the exact error message; the Expired outcome of the spec
is the authorization-timed-out message, the Denied outcome the
denied-by-user message. -/

/-- The device-code endpoint response (requestDeviceCode). -/
structure DeviceCodeResponse where
  device_code : String
  user_code : String
  verification_uri : String
  expires_in : Nat
  interval : Nat
deriving DecidableEq, Repr

/-- The token endpoint response (pollForAccessToken): optional access
token, optional error code, optional error description. -/
structure AccessTokenResponse where
  access_token : Option String
  error : Option String
  error_description : Option String
deriving DecidableEq, Repr

/-- The user returned by the user-info endpoint (fetchUser). -/
structure GitHubUser where
  id : Nat
  login : String
  name : Option String
  email : Option String
  avatar_url : String
  html_url : String
deriving DecidableEq, Repr

/-- The observable callbacks and network actions of one flow attempt:
onProgress text, the single onUserCode publication, and one token-endpoint
poll request. -/
inductive FlowEvent where
  | progress (text : String)
  | userCode (code : String) (uri : String)
  | polled
deriving DecidableEq, Repr

/-- Outcome of one flow attempt: resolve with token and user, reject with
an error message, or fuel exhaustion of the model (no program behavior). -/
inductive FlowResult where
  | ok (accessToken : String) (user : GitHubUser)
  | thrown (message : String)
  | diverged
deriving DecidableEq, Repr

/-- JavaScript truthiness of an optional string: present and nonempty. -/
def jsTruthy (v : Option String) : Bool :=
  match v with
  | some s => s ≠ ""
  | none => false

/-- JavaScript a || b on two optional strings where a falsy selects b;
used for error_description || error with error known present. -/
def jsOrElse (a : Option String) (b : String) : String :=
  match a with
  | some s => if s = "" then b else s
  | none => b

/-- The message thrown after the while loop: the wall clock passed the
original expiry with no terminal server response. -/
def timeoutMessage : String := "Authorization timed out. Please try again."

/-- The message thrown on the expired_token error code. -/
def expiredMessage : String := "Device code expired. Please try again."

/-- The message thrown on the access_denied error code. -/
def deniedMessage : String := "Authorization was denied by user."

/-- The message of the progress callback before the user fetch. -/
def fetchingMessage : String := "Fetching user info..."

/-- Embeds the while loop of authenticateWithDeviceFlow. Arguments after
the oracles: remaining fuel, current wall clock, expiry bound, current
interval in milliseconds, number of polls already issued. Each iteration
first checks the wall clock against the expiry, then sleeps for the
interval, polls the token endpoint, and dispatches on the response in
source order: a truthy access token resolves after fetching the user; the
authorization_pending error continues; the slow_down error adds 5000 ms to
the interval and continues; expired_token, access_denied and any other
truthy error throw; a response with no token and no truthy error falls
through to the next iteration. -/
def pollLoop (oracle : Nat → AccessTokenResponse) (fetchU : String → Except String GitHubUser) :
    Nat → Nat → Nat → Nat → Nat → FlowResult × List FlowEvent
  | 0, now, expiresAt, _, _ =>
    if now < expiresAt then (.diverged, []) else (.thrown timeoutMessage, [])
  | fuel + 1, now, expiresAt, interval, attempts =>
    if now < expiresAt then
      let now1 := now + interval
      let r := oracle attempts
      if jsTruthy r.access_token then
        match r.access_token with
        | some tok =>
          match fetchU tok with
          | .ok user => (.ok tok user, [.polled, .progress fetchingMessage])
          | .error e => (.thrown e, [.polled, .progress fetchingMessage])
        | none => (.diverged, [.polled])
      else if r.error = some "authorization_pending" then
        let rec1 := pollLoop oracle fetchU fuel now1 expiresAt interval (attempts + 1)
        (rec1.1, .polled :: rec1.2)
      else if r.error = some "slow_down" then
        let rec1 := pollLoop oracle fetchU fuel now1 expiresAt (interval + 5000) (attempts + 1)
        (rec1.1, .polled :: rec1.2)
      else if r.error = some "expired_token" then
        (.thrown expiredMessage, [.polled])
      else if r.error = some "access_denied" then
        (.thrown deniedMessage, [.polled])
      else if jsTruthy r.error then
        match r.error with
        | some e => (.thrown (jsOrElse r.error_description e), [.polled])
        | none => (.diverged, [.polled])
      else
        let rec1 := pollLoop oracle fetchU fuel now1 expiresAt interval (attempts + 1)
        (rec1.1, .polled :: rec1.2)
    else (.thrown timeoutMessage, [])

/-- Embeds authenticateWithDeviceFlow: publish the progress text, request
the device code (given as input), publish the user code and verification
URI once, publish the waiting progress text, compute the expiry from the
wall clock at start plus expires_in seconds, convert the server interval
to milliseconds, and enter the poll loop. -/
def authenticateWithDeviceFlow (resp : DeviceCodeResponse)
    (oracle : Nat → AccessTokenResponse) (fetchU : String → Except String GitHubUser)
    (fuel : Nat) (startNow : Nat) : FlowResult × List FlowEvent :=
  let expiresAt := startNow + resp.expires_in * 1000
  let interval := resp.interval * 1000
  let r := pollLoop oracle fetchU fuel startNow expiresAt interval 0
  (r.1,
   .progress "Requesting device code..." ::
   .userCode resp.user_code resp.verification_uri ::
   .progress "Waiting for authorization..." :: r.2)

/-- Number of poll requests in a flow event trace. -/
def countPolls (evs : List FlowEvent) : Nat :=
  (evs.filter (fun e => e matches .polled)).length

/-- Number of user-code publications in a flow event trace. -/
def countUserCode (evs : List FlowEvent) : Nat :=
  (evs.filter (fun e => e matches .userCode _ _)).length

/-! ## Spawn option resolution of the terminal:create handler -/

/-- JavaScript a || b on an optional string and a default: an absent or
empty string selects the default. -/
def jsOrStr (a : Option String) (b : String) : String :=
  match a with
  | some s => if s = "" then b else s
  | none => b

/-- Embeds the shellPath expression of terminal:create: options.shell, or
on win32 the powershell executable, otherwise the SHELL environment
variable, or the zsh path as last resort. -/
def resolveShell (optShell : Option String) (platform : String) (envSHELL : Option String) : String :=
  jsOrStr optShell
    (if platform = "win32" then "powershell.exe" else jsOrStr envSHELL "/bin/zsh")

/-- Embeds the cwd expression of the spawn call in terminal:create:
options.cwd || HOME, so the home directory is used only when options.cwd
is absent or empty; an explicit cwd is passed through unchecked. -/
def resolveCwd (optCwd : Option String) (envHOME : Option String) : Option String :=
  match optCwd with
  | some c => if c = "" then envHOME else some c
  | none => envHOME

/-- Modelled from the spec words of the readable-or-home substitution
claim, for comparison with resolveCwd: the home directory is substituted
whenever options.cwd is not a readable directory. -/
def specResolveCwd (readable : String → Bool) (optCwd : Option String)
    (envHOME : Option String) : Option String :=
  match optCwd with
  | some c => if readable c then some c else envHOME
  | none => envHOME

/-! ## Helper lemmas -/

theorem asString_injective : Function.Injective List.asString := by
  intro a b h
  simpa [List.asString, String.ext_iff] using h

theorem string_append_left_cancel {s t u : String} (h : s ++ t = s ++ u) : t = u := by
  apply String.ext
  have h2 := congrArg String.data h
  simp only [String.data_append] at h2
  exact List.append_cancel_left h2

theorem digitChar_inj_lt10 :
    ∀ a < 10, ∀ b < 10, Nat.digitChar a = Nat.digitChar b → a = b := by decide

theorem map_digitChar_inj :
    ∀ l₁ l₂ : List Nat, (∀ d ∈ l₁, d < 10) → (∀ d ∈ l₂, d < 10) →
      l₁.map Nat.digitChar = l₂.map Nat.digitChar → l₁ = l₂ := by
  intro l₁
  induction l₁ with
  | nil =>
    intro l₂ _ _ h
    cases l₂ with
    | nil => rfl
    | cons b bs => simp at h
  | cons a as ih =>
    intro l₂ h₁ h₂ h
    cases l₂ with
    | nil => simp at h
    | cons b bs =>
      simp only [List.map_cons, List.cons.injEq] at h
      have ha : a = b :=
        digitChar_inj_lt10 a (h₁ a (by simp)) b (h₂ b (by simp)) h.1
      have hs : as = bs :=
        ih bs (fun d hd => h₁ d (by simp [hd])) (fun d hd => h₂ d (by simp [hd])) h.2
      rw [ha, hs]

theorem natToDecAux_eq_digits :
    ∀ fuel n, n ≤ fuel → natToDecAux fuel n = (Nat.digits 10 n).reverse.map Nat.digitChar := by
  intro fuel
  induction fuel with
  | zero =>
    intro n hn
    interval_cases n
    simp [natToDecAux]
  | succ fuel ih =>
    intro n hn
    cases n with
    | zero => simp [natToDecAux]
    | succ m =>
      have hd : Nat.digits 10 (m + 1) = (m + 1) % 10 :: Nat.digits 10 ((m + 1) / 10) :=
        Nat.digits_def' (by norm_num) (Nat.succ_pos m)
      have hdiv : (m + 1) / 10 ≤ fuel := by
        have : (m + 1) / 10 < m + 1 := Nat.div_lt_self (Nat.succ_pos m) (by norm_num)
        omega
      simp [natToDecAux, ih _ hdiv, hd]

theorem natToDec_injective : Function.Injective natToDec := by
  have key : ∀ n, n ≠ 0 → natToDec n = ((Nat.digits 10 n).reverse.map Nat.digitChar).asString := by
    intro n hn
    simp [natToDec, hn, natToDecAux_eq_digits n n le_rfl]
  have digits_ne : ∀ n, n ≠ 0 → (Nat.digits 10 n).reverse.map Nat.digitChar ≠ ['0'] := by
    intro n hn hcontra
    have h1 : Nat.digits 10 n = [0] := by
      rcases hrev : (Nat.digits 10 n).reverse with _ | ⟨d, ds⟩
      · rw [hrev] at hcontra; simp at hcontra
      · rw [hrev] at hcontra
        simp only [List.map_cons, List.cons.injEq] at hcontra
        have hds : ds = [] := by
          rcases ds with _ | ⟨e, es⟩
          · rfl
          · simp at hcontra
        have hd10 : d < 10 := by
          have hmem : d ∈ Nat.digits 10 n := by
            have : d ∈ (Nat.digits 10 n).reverse := by rw [hrev]; simp
            simpa using this
          exact Nat.digits_lt_base (by norm_num) hmem
        have hd0 : d = 0 := by
          have := digitChar_inj_lt10 d hd10 0 (by norm_num) (by simpa using hcontra.1)
          simpa using this
        have : (Nat.digits 10 n).reverse = [0] := by rw [hrev, hds, hd0]
        calc Nat.digits 10 n = (Nat.digits 10 n).reverse.reverse := by simp
          _ = [0] := by rw [this]; rfl
    have : n = 0 := by
      have h2 := Nat.ofDigits_digits 10 n
      rw [h1] at h2
      simpa [Nat.ofDigits] using h2.symm
    exact hn this
  intro m n h
  by_cases hm : m = 0 <;> by_cases hn : n = 0
  · rw [hm, hn]
  · exfalso
    rw [hm] at h
    have hstr : List.asString ['0'] = ((Nat.digits 10 n).reverse.map Nat.digitChar).asString := by
      have h1 : List.asString ['0'] = natToDec 0 := rfl
      rw [h1, h, key n hn]
    exact digits_ne n hn (asString_injective hstr).symm
  · exfalso
    rw [hn] at h
    have hstr : List.asString ['0'] = ((Nat.digits 10 m).reverse.map Nat.digitChar).asString := by
      have h1 : List.asString ['0'] = natToDec 0 := rfl
      rw [h1, ← h, key m hm]
    exact digits_ne m hm (asString_injective hstr).symm
  · rw [key m hm, key n hn] at h
    have h2 := asString_injective h
    have h3 : (Nat.digits 10 m).reverse = (Nat.digits 10 n).reverse :=
      map_digitChar_inj _ _
        (fun d hd => Nat.digits_lt_base (by norm_num) (by simpa using hd))
        (fun d hd => Nat.digits_lt_base (by norm_num) (by simpa using hd)) h2
    have h4 : Nat.digits 10 m = Nat.digits 10 n := by
      have := congrArg List.reverse h3
      simpa using this
    calc m = Nat.ofDigits 10 (Nat.digits 10 m) := (Nat.ofDigits_digits 10 m).symm
      _ = Nat.ofDigits 10 (Nat.digits 10 n) := by rw [h4]
      _ = n := Nat.ofDigits_digits 10 n

theorem mkHandle_injective : Function.Injective mkHandle := by
  intro a b h
  exact natToDec_injective (string_append_left_cancel h)

theorem mapGet_mapDelete (m : Registry) (k : String) : mapGet (mapDelete m k) k = none := by
  simp only [mapGet, mapDelete]
  have hfind : List.find? (fun e => e.1 == k) (List.filter (fun e => e.1 != k) m) = none := by
    rw [List.find?_eq_none]
    intro e he
    have h2 := (List.mem_filter.mp he).2
    simp only [bne_iff_ne, ne_eq] at h2
    simp [h2]
  rw [hfind]
  rfl

/-! ## Claims -/

/-- C1: the porcelain status parser classifies as the spec states: the
line with index code M and blank working code yields exactly one staged
modified entry and nothing else; the double question mark line yields
exactly one untracked path and nothing else; the double M line yields one
staged modified entry and one unstaged modified entry for the same path,
not collapsed to one entry. -/
theorem C1_porcelain_classification :
    parseStatusOutput "M  src/a.ts" = ⟨[⟨"src/a.ts", "modified"⟩], [], []⟩ ∧
    parseStatusOutput "?? newfile.txt" = ⟨[], [], ["newfile.txt"]⟩ ∧
    parseStatusOutput "MM src/b.ts" =
      ⟨[⟨"src/b.ts", "modified"⟩], [⟨"src/b.ts", "modified"⟩], []⟩ := by
  refine ⟨by decide, by decide, by decide⟩

/-- C10: the exit listener always publishes a numeric exit code: the
published message carries the underlying code when it is a number, and 0
when the underlying process reports a null code (signal termination). -/
theorem C10_exit_code_is_number (s : TermState) (id : String) (code : Option Int) :
    (handleExit s id code).2 = [Msg.exited id (code.getD 0)] := by
  cases code with
  | none => rfl
  | some n =>
    simp only [handleExit, jsOrZero, Option.getD_some]
    split
    · next h => rw [h]
    · rfl

/-- C4: write, resize and kill on a handle that is not in the registry
raise no error (they are total functions) and leave the whole module
state, registry and live sessions alike, unchanged. -/
theorem C4_missing_handle_noop (s : TermState) (id : String) (data : String) (cols rows : Nat)
    (h : mapGet s.terminals id = none) :
    termWrite s id data = s ∧ termResize s id cols rows = s ∧ termKill s id = s := by
  refine ⟨?_, rfl, ?_⟩
  · simp [termWrite, h]
  · simp [termKill, h]

/-- Witness for C4: after one create, the handle term-9 is not registered
and all three operations on it leave the state unchanged. -/
theorem C4_missing_handle_noop_witness :
    termWrite (execOps [TOp.create]).1 "term-9" "ls" = (execOps [TOp.create]).1 ∧
    termResize (execOps [TOp.create]).1 "term-9" 80 24 = (execOps [TOp.create]).1 ∧
    termKill (execOps [TOp.create]).1 "term-9" = (execOps [TOp.create]).1 :=
  C4_missing_handle_noop (execOps [TOp.create]).1 "term-9" "ls" 80 24 (by decide)

/-- C9 counterexample: the claim says the home directory is substituted
whenever options.cwd is not a readable directory. The handler never
checks readability: under a filesystem where no path is readable, the
spec-modelled resolution yields the home directory while the code passes
the explicit cwd through to spawn unchanged. -/
theorem C9_counterexample :
    specResolveCwd (fun _ => false) (some "/no/such/dir") (some "/home/user") =
      some "/home/user" ∧
    resolveCwd (some "/no/such/dir") (some "/home/user") = some "/no/such/dir" ∧
    some "/no/such/dir" ≠ some "/home/user" := by
  refine ⟨rfl, rfl, by decide⟩

/-- C9 amended: the spawned child uses the platform interactive shell
whenever options.shell is absent (powershell on win32, else the SHELL
variable, else zsh), and the home directory is used as working directory
exactly when options.cwd is absent or empty; an explicit nonempty cwd is
passed through without any readability check. -/
theorem C9_shell_and_cwd_defaults (platform : String) (envSHELL envHOME : Option String) :
    resolveShell none platform envSHELL =
      (if platform = "win32" then "powershell.exe" else jsOrStr envSHELL "/bin/zsh") ∧
    resolveCwd none envHOME = envHOME ∧
    resolveCwd (some "") envHOME = envHOME ∧
    (∀ c : String, c ≠ "" → resolveCwd (some c) envHOME = some c) := by
  refine ⟨rfl, rfl, rfl, ?_⟩
  intro c hc
  simp [resolveCwd, hc]

/-- Witness for C9 amended: concrete platform and environment, and a
concrete nonempty explicit cwd that is passed through. -/
theorem C9_shell_and_cwd_defaults_witness :
    resolveShell none "linux" (some "/bin/bash") =
      (if "linux" = "win32" then "powershell.exe" else jsOrStr (some "/bin/bash") "/bin/zsh") ∧
    resolveCwd (some "/tmp") (some "/home/user") = some "/tmp" :=
  ⟨(C9_shell_and_cwd_defaults "linux" (some "/bin/bash") (some "/home/user")).1,
   (C9_shell_and_cwd_defaults "linux" (some "/bin/bash") (some "/home/user")).2.2.2
     "/tmp" (by decide)⟩

/-- C2 counterexample: with the session term-1 live, a spawn failure
(the error listener firing with the spawn error text) publishes no exit
notification at all and leaves the handle in the registry, contrary to
the claimed synthetic exit code publication followed by removal. -/
theorem C2_counterexample :
    ((handleError (execOps [TOp.create]).1 "term-1" "spawn /bin/nosuch ENOENT").2.filter
        isExitMsg).length = 0 ∧
    mapGet (handleError (execOps [TOp.create]).1 "term-1" "spawn /bin/nosuch ENOENT").1.terminals
        "term-1" = some ⟨[], false⟩ := by
  refine ⟨rfl, by decide⟩

/-- C2 amended: on normal exit the manager publishes exactly one exit
notification carrying the exit code (a null code becomes 0) and removes
the handle from the registry; on spawn failure the error listener
publishes the error text as a data message, publishes no exit
notification, and leaves the registry unchanged. -/
theorem C2_exit_once_spawn_failure_no_exit (s : TermState) (id : String) (code : Option Int)
    (emsg : String) :
    ((handleExit s id code).2.filter isExitMsg).length = 1 ∧
    mapGet (handleExit s id code).1.terminals id = none ∧
    ((handleError s id emsg).2.filter isExitMsg).length = 0 ∧
    (handleError s id emsg).1 = s ∧
    (handleError s id emsg).2 = [Msg.chunk id ("\r\nError: " ++ emsg ++ "\r\n")] :=
  ⟨rfl, mapGet_mapDelete _ _, rfl, rfl, rfl⟩

/-- The keys of the Map are unchanged by updating the value at a key. -/
theorem mapModify_keys (m : Registry) (k : String) (f : ProcSt → ProcSt) :
    (mapModify m k f).map Prod.fst = m.map Prod.fst := by
  simp only [mapModify, List.map_map]
  apply List.map_congr_left
  intro e _
  by_cases h : e.1 = k <;> simp [h]

/-- Deleting a key preserves the terminal module invariant. -/
theorem TermInv_delete (s : TermState) (issued : List String) (id : String)
    (h : TermInv s issued) : TermInv ⟨s.counter, mapDelete s.terminals id⟩ issued := by
  obtain ⟨hIss, hKeys, hSub, hBound⟩ := h
  refine ⟨hIss, ?_, ?_, hBound⟩
  · exact List.Nodup.sublist ((List.filter_sublist _).map Prod.fst) hKeys
  · intro e he
    exact hSub e (List.mem_of_mem_filter he)

/-- Updating the value at a key preserves the terminal module invariant. -/
theorem TermInv_modify (s : TermState) (issued : List String) (id : String) (f : ProcSt → ProcSt)
    (h : TermInv s issued) : TermInv ⟨s.counter, mapModify s.terminals id f⟩ issued := by
  obtain ⟨hIss, hKeys, hSub, hBound⟩ := h
  refine ⟨hIss, ?_, ?_, hBound⟩
  · rw [mapModify_keys]
    exact hKeys
  · intro e he
    simp only [mapModify, List.mem_map] at he
    obtain ⟨e0, he0, heq⟩ := he
    have : e.1 = e0.1 := by
      rw [← heq]
      by_cases hb : (e0.1 == id) = true <;> simp [hb]
    rw [this]
    exact hSub e0 he0

/-- One operation preserves the terminal module invariant, extending the
issued list with the freshly issued handle when the operation is create. -/
theorem stepOp_preserves (s : TermState) (issued : List String) (op : TOp)
    (h : TermInv s issued) :
    TermInv (stepOp s op).1 (issued ++ ((stepOp s op).2).toList) := by
  obtain ⟨hIss, hKeys, hSub, hBound⟩ := h
  cases op with
  | create =>
    simp only [stepOp, termCreate, Option.toList_some]
    have hIdNew : mkHandle (s.counter + 1) ∉ issued := by
      intro hmem
      obtain ⟨k, _, hkle, hkeq⟩ := hBound _ hmem
      have : k = s.counter + 1 := mkHandle_injective hkeq.symm
      omega
    have hIdKeys : mkHandle (s.counter + 1) ∉ s.terminals.map Prod.fst := by
      intro hmem
      obtain ⟨e, he, heq⟩ := List.mem_map.mp hmem
      exact hIdNew (heq ▸ hSub e he)
    have hAny : s.terminals.any (fun e => e.1 == mkHandle (s.counter + 1)) = false := by
      rw [← Bool.not_eq_true, List.any_eq_true]
      rintro ⟨e, he, heq⟩
      apply hIdKeys
      rw [← (beq_iff_eq.mp heq)]
      exact List.mem_map.mpr ⟨e, he, rfl⟩
    have hSet : mapSet s.terminals (mkHandle (s.counter + 1)) ⟨[], false⟩ =
        s.terminals ++ [(mkHandle (s.counter + 1), ⟨[], false⟩)] := by
      simp [mapSet, hAny]
    rw [hSet]
    refine ⟨?_, ?_, ?_, ?_⟩
    · rw [List.nodup_append]
      refine ⟨hIss, List.nodup_singleton _, ?_⟩
      intro a ha hb
      rw [List.mem_singleton.mp hb] at ha
      exact hIdNew ha
    · rw [List.map_append, List.nodup_append]
      refine ⟨hKeys, by simp, ?_⟩
      intro a ha hb
      simp only [List.map_cons, List.map_nil, List.mem_singleton] at hb
      rw [hb] at ha
      exact hIdKeys ha
    · intro e he
      rcases List.mem_append.mp he with h1 | h1
      · exact List.mem_append.mpr (Or.inl (hSub e h1))
      · rw [List.mem_singleton.mp h1]
        exact List.mem_append.mpr (Or.inr (by simp))
    · intro hdl hmem
      rcases List.mem_append.mp hmem with h1 | h1
      · obtain ⟨k, hk0, hkle, hkeq⟩ := hBound hdl h1
        exact ⟨k, hk0, le_trans hkle (Nat.le_succ _), hkeq⟩
      · exact ⟨s.counter + 1, Nat.succ_pos _, le_rfl, List.mem_singleton.mp h1⟩
  | write id data =>
    simp only [stepOp, Option.toList_none, List.append_nil, termWrite]
    cases hg : mapGet s.terminals id with
    | none => exact ⟨hIss, hKeys, hSub, hBound⟩
    | some p => exact TermInv_modify s issued id _ ⟨hIss, hKeys, hSub, hBound⟩
  | resize id cols rows =>
    simp only [stepOp, termResize, Option.toList_none, List.append_nil]
    exact ⟨hIss, hKeys, hSub, hBound⟩
  | kill id =>
    simp only [stepOp, Option.toList_none, List.append_nil, termKill]
    cases hg : mapGet s.terminals id with
    | none => exact ⟨hIss, hKeys, hSub, hBound⟩
    | some p => exact TermInv_delete s issued id ⟨hIss, hKeys, hSub, hBound⟩
  | exitEvt id code =>
    simp only [stepOp, Option.toList_none, List.append_nil, handleExit]
    exact TermInv_delete s issued id ⟨hIss, hKeys, hSub, hBound⟩
  | errorEvt id emsg =>
    simp only [stepOp, handleError, Option.toList_none, List.append_nil]
    exact ⟨hIss, hKeys, hSub, hBound⟩

/-- Running a sequence of operations preserves the invariant. -/
theorem runOps_preserves (ops : List TOp) :
    ∀ (s : TermState) (issued : List String), TermInv s issued →
      TermInv (runOps s issued ops).1 (runOps s issued ops).2 := by
  induction ops with
  | nil => intro s issued h; exact h
  | cons op rest ih =>
    intro s issued h
    simp only [runOps]
    exact ih _ _ (stepOp_preserves s issued op h)

/-- C3: over every sequence of create, write, resize, kill and process
events, no handle is ever issued twice (hence a handle removed from the
registry is never reissued by a later create), and the registry never
holds two entries under the same handle. -/
theorem C3_handles_unique (ops : List TOp) :
    ((execOps ops).2).Nodup ∧ (((execOps ops).1).terminals.map Prod.fst).Nodup := by
  have h0 : TermInv initTermState [] := by
    refine ⟨List.nodup_nil, ?_, ?_, ?_⟩ <;> simp [initTermState]
  have h := runOps_preserves ops initTermState [] h0
  exact ⟨h.1, h.2.1⟩

/-- C5 counterexample: starting from the partially staged state produced
by parsing the double-M porcelain line, stageFile on that path appends
the unstaged entry to staged without deduplication, so the staged
collection holds two entries for the same path. -/
theorem C5_counterexample :
    ¬ ((stageFile (parseStatusOutput "MM src/b.ts") "src/b.ts").staged.map
        FileChange.path).Nodup := by decide

/-- C5 amended: for every state satisfying the three-collection
mutual-exclusion invariant (each collection duplicate-free by path and
pairwise disjoint, so no partially staged path), every optimistic
mutation leaves the staged collection with at most one entry per path; on
a partially staged state the uniqueness is violated, as the
counterexample shows. -/
theorem C5_staged_unique (st : GitStatus) (p : String) (h : StatusInv st) :
    ((stageFile st p).staged.map FileChange.path).Nodup ∧
    ((unstageFile st p).staged.map FileChange.path).Nodup ∧
    ((stageAll st).staged.map FileChange.path).Nodup ∧
    ((unstageAll st).staged.map FileChange.path).Nodup := by
  obtain ⟨hs, hu, ht, hsu, hst, hut⟩ := h
  refine ⟨?_, ?_, ?_, ?_⟩
  · cases hf : st.unstaged.find? (fun f => f.path == p) with
    | some f =>
      simp only [stageFile, hf, List.map_append]
      rw [List.nodup_append]
      refine ⟨hs, by simp, ?_⟩
      intro a ha hb
      simp only [List.map_cons, List.map_nil, List.mem_singleton] at hb
      have hfp : f.path ∈ st.unstaged.map FileChange.path :=
        List.mem_map.mpr ⟨f, List.mem_of_find?_eq_some hf, rfl⟩
      rw [hb] at ha
      exact hsu _ ha hfp
    | none =>
      simp only [stageFile, hf]
      by_cases hc : st.untracked.contains p
      · simp only [hc, if_true, List.map_append]
        rw [List.nodup_append]
        refine ⟨hs, by simp, ?_⟩
        intro a ha hb
        simp only [List.map_cons, List.map_nil, List.mem_singleton] at hb
        have hp : p ∈ st.untracked := by simpa [List.contains] using hc
        rw [hb] at ha
        exact hst _ ha hp
      · simp only [hc, if_false]
        exact hs
  · cases hf : st.staged.find? (fun f => f.path == p) with
    | none => simpa only [unstageFile, hf] using hs
    | some f =>
      simp only [unstageFile, hf]
      have hsub : ((st.staged.filter (fun g => g.path != p)).map FileChange.path).Nodup :=
        List.Nodup.sublist ((List.filter_sublist _).map FileChange.path) hs
      by_cases hb : (f.status == "added") = true <;> simp [hb, hsub]
  · simp only [stageAll, List.map_append, List.map_map]
    have hid : (st.untracked.map (FileChange.path ∘ fun q => (⟨q, "added"⟩ : FileChange))) =
        st.untracked := by
      calc st.untracked.map (FileChange.path ∘ fun q => (⟨q, "added"⟩ : FileChange))
          = st.untracked.map (fun q => q) := List.map_congr_left (fun q _ => rfl)
        _ = st.untracked := List.map_id' st.untracked
    rw [hid, List.nodup_append]
    refine ⟨?_, ht, ?_⟩
    · rw [List.nodup_append]
      exact ⟨hs, hu, fun a ha hb => hsu a ha hb⟩
    · intro a ha hb
      rcases List.mem_append.mp ha with h1 | h1
      · exact hst a h1 hb
      · exact hut a h1 hb
  · simp [unstageAll]

/-- Witness for C5 amended: a concrete state satisfying the invariant;
all four mutations keep the staged collection duplicate-free. -/
theorem C5_staged_unique_witness :
    ((stageFile ⟨[⟨"a", "modified"⟩], [⟨"b", "modified"⟩], ["c"]⟩ "b").staged.map
        FileChange.path).Nodup ∧
    ((unstageFile ⟨[⟨"a", "modified"⟩], [⟨"b", "modified"⟩], ["c"]⟩ "b").staged.map
        FileChange.path).Nodup ∧
    ((stageAll ⟨[⟨"a", "modified"⟩], [⟨"b", "modified"⟩], ["c"]⟩).staged.map
        FileChange.path).Nodup ∧
    ((unstageAll ⟨[⟨"a", "modified"⟩], [⟨"b", "modified"⟩], ["c"]⟩).staged.map
        FileChange.path).Nodup :=
  C5_staged_unique ⟨[⟨"a", "modified"⟩], [⟨"b", "modified"⟩], ["c"]⟩ "b" (by decide)

/-- C6 counterexample: the both-added conflict state parsed from the
double-A porcelain line has its path in both staged and unstaged. After
stageFile followed by unstageFile with no refresh, the path has moved to
untracked: a path staged from unstaged did not return to unstaged, so the
round trip does not restore the pre-stage classification. -/
theorem C6_counterexample :
    classify (unstageFile (stageFile (parseStatusOutput "AA conflict.txt") "conflict.txt")
        "conflict.txt") "conflict.txt" ≠
      classify (parseStatusOutput "AA conflict.txt") "conflict.txt" := by decide

/-- C6 amended: provided the path has no staged entry, and it either has
an unstaged entry whose recorded status is not the added status, or has
no unstaged entry and is untracked, stageFile followed by unstageFile
with no intervening refresh restores the classification of the path
(membership in staged, unstaged and untracked). A path whose entry
carries the added status while unstaged, or a partially staged path, is
sent to untracked instead, as the counterexample shows. -/
theorem C6_stage_unstage_roundtrip (st : GitStatus) (p : String)
    (hstaged : ∀ f ∈ st.staged, f.path ≠ p)
    (hcase : (∃ f, st.unstaged.find? (fun g => g.path == p) = some f ∧ f.status ≠ "added") ∨
      (st.unstaged.find? (fun g => g.path == p) = none ∧ p ∈ st.untracked)) :
    classify (unstageFile (stageFile st p) p) p = classify st p := by
  have hfindStaged : st.staged.find? (fun g => g.path == p) = none := by
    rw [List.find?_eq_none]
    intro f hf
    simp [hstaged f hf]
  have hanyStaged : st.staged.any (fun f => f.path == p) = false := by
    rw [← Bool.not_eq_true, List.any_eq_true]
    rintro ⟨f, hf, heq⟩
    exact hstaged f hf (beq_iff_eq.mp heq)
  have hfilterAny : ∀ l : List FileChange,
      ((l.filter (fun f => f.path != p)).any (fun f => f.path == p)) = false := by
    intro l
    rw [← Bool.not_eq_true, List.any_eq_true]
    rintro ⟨f, hf, heq⟩
    have h2 := (List.mem_filter.mp hf).2
    simp only [bne_iff_ne, ne_eq] at h2
    exact h2 (beq_iff_eq.mp heq)
  rcases hcase with ⟨f, hfind, hadded⟩ | ⟨hfind, huntracked⟩
  · have hfp : f.path = p := by
      have h2 := List.find?_some hfind
      simpa using h2
    have hmem : f ∈ st.unstaged := List.mem_of_find?_eq_some hfind
    have hfind2 : ((st.staged ++ [f]).find? (fun g => g.path == p)) = some f := by
      rw [List.find?_append, hfindStaged]
      simp [hfp]
    have hb : (f.status == "added") = false := by
      simp only [beq_eq_false_iff_ne, ne_eq]
      exact hadded
    simp only [stageFile, hfind, unstageFile, hfind2, hb, Bool.false_eq_true, if_false]
    simp only [classify]
    refine congrArg₂ Prod.mk ?_ (congrArg₂ Prod.mk ?_ rfl)
    · rw [hfilterAny, hanyStaged]
    · rw [List.any_append]
      have h1 : List.any [f] (fun g => g.path == p) = true := by simp [hfp]
      have h2 : st.unstaged.any (fun g => g.path == p) = true :=
        List.any_eq_true.mpr ⟨f, hmem, by simp [hfp]⟩
      rw [h1, h2]
      simp
  · have hcontains : st.untracked.contains p = true := by
      simpa [List.contains] using huntracked
    have hfind2 : ((st.staged ++ [(⟨p, "added"⟩ : FileChange)]).find?
        (fun g => g.path == p)) = some ⟨p, "added"⟩ := by
      rw [List.find?_append, hfindStaged]
      simp
    simp only [stageFile, hfind, hcontains, if_true, unstageFile, hfind2]
    simp only [show (("added" : String) == "added") = true from rfl, if_true]
    simp only [classify]
    refine congrArg₂ Prod.mk ?_ (congrArg₂ Prod.mk rfl ?_)
    · rw [hfilterAny, hanyStaged]
    · have h1 : (st.untracked.filter (fun q => q != p) ++ [p]).contains p = true := by
        simp [List.contains]
      rw [h1, hcontains]

/-- Witness for C6 amended: a modified unstaged entry with an untracked
bystander; the round trip restores the classification. -/
theorem C6_stage_unstage_roundtrip_witness :
    classify (unstageFile (stageFile ⟨[], [⟨"f", "modified"⟩], ["g"]⟩ "f") "f") "f" =
      classify ⟨[], [⟨"f", "modified"⟩], ["g"]⟩ "f" :=
  C6_stage_unstage_roundtrip ⟨[], [⟨"f", "modified"⟩], ["g"]⟩ "f" (by decide)
    (Or.inl ⟨⟨"f", "modified"⟩, by decide, by decide⟩)

/-- C7: whenever the wall clock has reached the original expiry while the
flow is still polling (no terminal server response yet), the very next
check of the while condition ends the attempt with the Expired outcome
(the authorization-timed-out rejection) and the loop issues no further
poll request, whatever the token endpoint would have answered. -/
theorem C7_wall_clock_expiry (oracle : Nat → AccessTokenResponse)
    (fetchU : String → Except String GitHubUser) (fuel now expiresAt interval attempts : Nat)
    (h : expiresAt ≤ now) :
    pollLoop oracle fetchU fuel now expiresAt interval attempts =
      (FlowResult.thrown timeoutMessage, []) := by
  cases fuel <;> simp [pollLoop, Nat.not_lt.mpr h]

/-- Witness for C7: the clock sits exactly at the expiry and the server
would immediately answer with an access token, yet the attempt ends
Expired with no further poll. -/
theorem C7_wall_clock_expiry_witness :
    pollLoop (fun _ => ⟨some "gho_tok", none, none⟩)
        (fun _ => Except.ok ⟨1, "octocat", none, none, "", ""⟩) 5 1000 1000 5000 2 =
      (FlowResult.thrown timeoutMessage, []) :=
  C7_wall_clock_expiry _ _ 5 1000 1000 5000 2 (by decide)

/-- C8: against a token endpoint answering authorization_pending on the
first three polls and an access token on the fourth, with the expiry far
away, the flow resolves with the token and user after exactly 4 poll
requests, and the user code is published exactly once in the whole
attempt. -/
theorem C8_pending_thrice_then_token :
    (authenticateWithDeviceFlow
        ⟨"devcode", "ABCD-1234", "https://github.com/login/device", 900, 5⟩
        (fun n => if n < 3 then ⟨none, some "authorization_pending", none⟩
          else ⟨some "gho_tok", none, none⟩)
        (fun _ => Except.ok ⟨1, "octocat", none, none, "", ""⟩) 10 0).1 =
      FlowResult.ok "gho_tok" ⟨1, "octocat", none, none, "", ""⟩ ∧
    countPolls (authenticateWithDeviceFlow
        ⟨"devcode", "ABCD-1234", "https://github.com/login/device", 900, 5⟩
        (fun n => if n < 3 then ⟨none, some "authorization_pending", none⟩
          else ⟨some "gho_tok", none, none⟩)
        (fun _ => Except.ok ⟨1, "octocat", none, none, "", ""⟩) 10 0).2 = 4 ∧
    countUserCode (authenticateWithDeviceFlow
        ⟨"devcode", "ABCD-1234", "https://github.com/login/device", 900, 5⟩
        (fun n => if n < 3 then ⟨none, some "authorization_pending", none⟩
          else ⟨some "gho_tok", none, none⟩)
        (fun _ => Except.ok ⟨1, "octocat", none, none, "", ""⟩) 10 0).2 = 1 := by
  refine ⟨by decide, by decide, by decide⟩

end VanillaShell
